import Mathlib

set_option maxHeartbeats 1000000

/-!
# Verification of the `CRUDBase` middleware

Shallow embedding of the two `CRUDBase` classes of this repository:
the synchronous variant (`fastapi_sqlalchemy/base_middleware.py`,
namespace `Sync`) and the asynchronous variant
(`middleware/base_middleware.py`, namespace `Async`).

Modelling conventions:
* A database value is a `Value`; a row is a `Row`, a list of named fields,
  with absent fields read as SQL NULL.  A mapped model class is a `ModelT`:
  its class name plus the list of attribute names (each a column or a
  relationship); `hasattr` is lookup in that list.
* A query built by the class is a `QueryS`: a conjunction of filter
  conditions, joined tables and ordering terms.  Raw SQLAlchemy condition
  objects (as passed through the reserved `inner_filter` keyword) and
  joined tables are opaque tags interpreted by an environment `Env`.
* Executing a `select` over a session is `runQuery`: the rows of the table
  satisfying every condition (and every inner join), ordered.  `.first()`
  is `List.head?`, `.unique()` is row deduplication, the external
  `paginate` helper is a drop/take slice given ambient page parameters.
* Python exceptions are `Exc`; fallible code returns `Except`.
  Stateful code (create/update/remove/hard_delete) passes a `DBState`
  (committed rows plus pending, not yet committed, rows) explicitly; the
  database's own constraint checking, external to this repository, is an
  opaque `DBBackend` deciding whether a flush/commit raises.
* `with_deleted` (defined outside this repository) is modelled by its
  evident purpose: the query includes every row, soft-deleted or not;
  `db.query(...)` itself applies no implicit filter (stock behaviour).
* `jsonable_encoder` on a payload is modelled as the identity on the
  field dictionary, which a `Row` already is.
-/

/-- SQL comparison operators produced by the `_orm_operator_transformer`
dictionary and by the inline query-building loops. -/
inductive Op where
  | eq | ne | gt | ge | lt | le | in_ | notIn | is_ | isNot | like | ilike
  deriving Repr, DecidableEq

/-- A Python / database value as it appears in keyword arguments and rows.
`vRaw` is an opaque SQLAlchemy condition object (only meaningful to
`query.filter(*value)` through the reserved `inner_filter` keyword). -/
inductive Value where
  | vInt (n : Int)
  | vStr (s : String)
  | vBool (b : Bool)
  | vNull
  | vList (l : List Value)
  | vRaw (t : Nat)
  deriving Repr

mutual

/-- Structural equality of values. -/
def Value.beq : Value → Value → Bool
  | .vInt a, .vInt b => a == b
  | .vStr a, .vStr b => a == b
  | .vBool a, .vBool b => a == b
  | .vNull, .vNull => true
  | .vList a, .vList b => Value.beqList a b
  | .vRaw a, .vRaw b => a == b
  | _, _ => false

/-- Structural equality of value lists. -/
def Value.beqList : List Value → List Value → Bool
  | [], [] => true
  | a :: as, b :: bs => Value.beq a b && Value.beqList as bs
  | _, _ => false

end

/-- Python truthiness of a value (`if value:`). -/
def Value.truthy : Value → Bool
  | .vInt n => n != 0
  | .vStr s => s != ""
  | .vBool b => b
  | .vNull => false
  | .vList l => !l.isEmpty
  | .vRaw _ => true

/-- Is the value SQL NULL? -/
def Value.isNull : Value → Bool
  | .vNull => true
  | _ => false

/-- A single filter condition of a query: either a comparison of a named
column against a value, or an opaque raw condition object. -/
inductive Cond where
  | cmp (field : String) (op : Op) (value : Value)
  | raw (t : Nat)
  deriving Repr

/-- The sort key of an `order_by` term: the model's `id` column
(`getattr(self.model, "id")`) or a caller-supplied value. -/
inductive OrderKey where
  | modelId
  | val (v : Value)
  deriving Repr

/-- One `order_by` term: key, direction, and whether `nulls_last` wraps it. -/
structure OrderSpec where
  key : OrderKey
  descend : Bool
  nullsLast : Bool
  deriving Repr

/-- A query under construction: conjunction of conditions, joined tables
(tag plus the query-wide `isouter` flag), and ordering terms. -/
structure QueryS where
  conds : List Cond
  joins : List (Nat × Bool)
  orders : List OrderSpec
  deriving Repr

/-- The query `select(self.model)` before any filtering. -/
def emptyQuery : QueryS := ⟨[], [], []⟩

/-- A database row: a list of named fields. -/
structure Row where
  fields : List (String × Value)
  deriving Repr

/-- Look a field up in a field list. -/
def lookupField : List (String × Value) → String → Option Value
  | [], _ => none
  | (k, v) :: rest, s => if k == s then some v else lookupField rest s

/-- Read a column of a row; a column missing from the row is NULL. -/
def Row.get (r : Row) (f : String) : Value := (lookupField r.fields f).getD .vNull

/-- Overwrite a field of a field list (append it when absent). -/
def setField : List (String × Value) → String → Value → List (String × Value)
  | [], f, v => [(f, v)]
  | (k, w) :: rest, f, v =>
    if k == f then (k, v) :: rest else (k, w) :: setField rest f v

/-- `setattr` on a row. -/
def Row.set (r : Row) (f : String) (v : Value) : Row := ⟨setField r.fields f v⟩

/-- Field-list equality. -/
def fieldsBeq : List (String × Value) → List (String × Value) → Bool
  | [], [] => true
  | (k1, v1) :: r1, (k2, v2) :: r2 => k1 == k2 && Value.beq v1 v2 && fieldsBeq r1 r2
  | _, _ => false

/-- Row equality (models object identity of a fetched ORM entity). -/
def rowBeq (r1 r2 : Row) : Bool := fieldsBeq r1.fields r2.fields

/-- One attribute of a mapped model class: its name, and whether it is a
relationship (its `property` has a `direction`) or a plain column. -/
structure ModelAttr where
  name : String
  isRelationship : Bool
  deriving Repr

/-- A mapped model class: its `__name__` and its attributes. -/
structure ModelT where
  name : String
  attrs : List ModelAttr
  deriving Repr

/-- `hasattr(self.model, s)`. -/
def hasattrM (m : ModelT) (s : String) : Bool := m.attrs.any (fun a => a.name == s)

/-- `getattr(self.model, s)` when present. -/
def findAttr (m : ModelT) (s : String) : Option ModelAttr :=
  m.attrs.find? (fun a => a.name == s)

/-- Interpretation environment for the opaque parts of a query: semantics
of raw condition objects and of join targets (whether a base-table row has
a matching partner in the joined table). -/
structure Env where
  rawSem : Nat → Row → Bool
  joinSem : Nat → Row → Bool

/-- SQL `=` as SQLAlchemy compiles `column == value`
(`== None` compiles to IS NULL; comparison with NULL is never true). -/
def sqlEq (a v : Value) : Bool :=
  if v.isNull then a.isNull else if a.isNull then false else Value.beq a v

/-- SQL `!=` as SQLAlchemy compiles `column != value`
(`!= None` compiles to IS NOT NULL). -/
def sqlNe (a v : Value) : Bool :=
  if v.isNull then !a.isNull else if a.isNull then false else !(Value.beq a v)

/-- Strict order on values: defined on integers and on strings. -/
def valLt (a b : Value) : Bool :=
  match a, b with
  | .vInt x, .vInt y => x < y
  | .vStr x, .vStr y => x < y
  | _, _ => false

/-- SQL LIKE pattern matching (`%` any run, `_` any one character). -/
def likeChars (s p : List Char) : Bool :=
  match s, p with
  | [], [] => true
  | [], c :: p' => c == '%' && likeChars [] p'
  | _ :: _, [] => false
  | x :: s', c :: p' =>
    if c == '%' then likeChars (x :: s') p' || likeChars s' (c :: p')
    else if c == '_' then likeChars s' p'
    else x == c && likeChars s' p'
termination_by s.length + p.length
decreasing_by all_goals simp_arith

/-- Evaluate one comparison condition on a row. -/
def evalCmp (r : Row) (f : String) (op : Op) (v : Value) : Bool :=
  let a := r.get f
  match op with
  | .eq => sqlEq a v
  | .ne => sqlNe a v
  | .gt => valLt v a
  | .ge => if a.isNull || v.isNull then false else (Value.beq a v || valLt v a)
  | .lt => valLt a v
  | .le => if a.isNull || v.isNull then false else (Value.beq a v || valLt a v)
  | .in_ =>
    match v with
    | .vList l => if a.isNull then false else l.any (Value.beq a)
    | _ => false
  | .notIn =>
    match v with
    | .vList l => if a.isNull then false else !(l.any (Value.beq a))
    | _ => false
  | .is_ => Value.beq a v
  | .isNot => !(Value.beq a v)
  | .like =>
    match a, v with
    | .vStr s, .vStr pat => likeChars s.toList pat.toList
    | _, _ => false
  | .ilike =>
    match a, v with
    | .vStr s, .vStr pat => likeChars s.toLower.toList pat.toLower.toList
    | _, _ => false

/-- Evaluate one condition on a row. -/
def evalCond (env : Env) (r : Row) : Cond → Bool
  | .cmp f op v => evalCmp r f op v
  | .raw t => env.rawSem t r

/-- Does a row satisfy a query's WHERE clause and its inner joins?
An outer join never removes a base-table row. -/
def matchesQ (env : Env) (q : QueryS) (r : Row) : Bool :=
  q.conds.all (evalCond env r) && q.joins.all (fun j => j.2 || env.joinSem j.1 r)

/-- Compare two values for ordering purposes. -/
def cmpValue (a b : Value) : Ordering :=
  if Value.beq a b then .eq else if valLt a b then .lt else if valLt b a then .gt else .eq

/-- The sort key of a row under an `order_by` key: a string names a
column; the model's `id` column reads the `id` field. -/
def orderKeyVal (k : OrderKey) (r : Row) : Value :=
  match k with
  | .modelId => r.get "id"
  | .val (.vStr f) => r.get f
  | .val v => v

/-- Compare two rows under one ordering term. -/
def specCmp (sp : OrderSpec) (r1 r2 : Row) : Ordering :=
  let a := orderKeyVal sp.key r1
  let b := orderKeyVal sp.key r2
  if a.isNull && b.isNull then .eq
  else if a.isNull then (if sp.nullsLast then .gt else .lt)
  else if b.isNull then (if sp.nullsLast then .lt else .gt)
  else
    let c := cmpValue a b
    if sp.descend then c.swap else c

/-- Lexicographic row order over a list of ordering terms. -/
def rowLe (os : List OrderSpec) (r1 r2 : Row) : Bool :=
  match os with
  | [] => true
  | sp :: rest =>
    match specCmp sp r1 r2 with
    | .lt => true
    | .gt => false
    | .eq => rowLe rest r1 r2

/-- Insertion step of the result-ordering sort. -/
def insertRow (os : List OrderSpec) (r : Row) : List Row → List Row
  | [] => [r]
  | x :: xs => if rowLe os r x then r :: x :: xs else x :: insertRow os r xs

/-- Order the result rows of a query (insertion sort; a permutation). -/
def orderRows (os : List OrderSpec) (l : List Row) : List Row :=
  l.foldr (insertRow os) []

/-- Execute a select query over a table: the ordered matching rows. -/
def runQuery (env : Env) (table : List Row) (q : QueryS) : List Row :=
  orderRows q.orders (table.filter (matchesQ env q))

/-- `fastapi_pagination.paginate`: the page slice (offset, limit) of the
result list, the page parameters being ambient request state. -/
def paginateRows (pp : Nat × Nat) (l : List Row) : List Row :=
  (l.drop pp.1).take pp.2

/-- `.unique()` on a result: drop duplicate rows, keeping first occurrences. -/
def dedupRowsAux (seen : List Row) : List Row → List Row
  | [] => []
  | r :: rs =>
    if seen.any (rowBeq r) then dedupRowsAux seen rs
    else r :: dedupRowsAux (r :: seen) rs

/-- `.unique().scalars().all()` of an executed query. -/
def dedupRows (l : List Row) : List Row := dedupRowsAux [] l

/-- Python exceptions raised by the embedded code paths. -/
inductive PyErr where
  | attributeError
  | keyError
  | valueError
  | typeError
  | argumentError
  | unmappedInstanceError
  deriving Repr, DecidableEq

/-- Exceptions crossing the `CRUDBase` boundary: the project's
`BaseHTTPException` (detail, status code, error code), FastAPI's
`HTTPException` (detail, status code), an uncaught database error, or a
plain Python exception. -/
inductive Exc where
  | baseHTTP (detail : String) (statusCode : Nat) (errorCode : String)
  | http (detail : String) (statusCode : Nat)
  | dbError (txt : String)
  | py (e : PyErr)
  deriving Repr

/-- An error reported by the database driver at flush/commit time. -/
inductive DBErr where
  | integrity (txt : String)
  | other (txt : String)
  deriving Repr

/-- Session state: committed rows and pending (added, not yet committed)
rows. -/
structure DBState where
  committed : List Row
  pending : List Row
  deriving Repr

/-- The database's constraint checking (uniqueness etc.), external to this
repository: given committed rows and the rows about to be flushed, does
the flush/commit raise, and with which error? -/
structure DBBackend where
  commitErr : List Row → List Row → Option DBErr

/-- The external `filter_data` object of `get_multi` (a fastapi-filter
style object): its `filter` and `sort` methods transform a query. -/
structure FilterData where
  filt : QueryS → QueryS
  sort : QueryS → QueryS

/-- `jsonable_encoder` on a create payload: the payload is already a field
dictionary, i.e. a `Row`. -/
def jsonable_encoder (r : Row) : Row := r

/-! ## Shared pieces of both `CRUDBase` variants

The two source files contain textually identical code for the operator
table, the query-building loop bodies, `_active_data`, `is_exist`,
`filter_by`, `get_multi` and `count`; those pieces are transcribed once
and used by both namespaces. -/

/-- `self.model_name`: the `reduce` in `__init__` inserting `_` before
every upper-case character after the first. -/
def modelName (className : String) : String :=
  match className.toList with
  | [] => ""
  | c :: rest =>
    rest.foldl (fun x y => x ++ (if y.isUpper then "_" else "") ++ y.toString) c.toString

/-- Detail string of the 404 `BaseHTTPException`. -/
def notFoundDetail (m : ModelT) : String :=
  ((modelName m.name).replace "_" " ") ++ " not found"

/-- Detail string of the 400 `BaseHTTPException` raised by `is_exist`. -/
def alreadyExistsDetail (m : ModelT) : String :=
  ((modelName m.name).replace "_" " ") ++ " already exists"

/-- `kwargs.get(k)`. -/
def getKw (kwargs : List (String × Value)) (k : String) : Option Value :=
  (kwargs.find? (fun kv => kv.1 == k)).map (fun kv => kv.2)

/-- Split a character list on the two-character separator `__`, greedily
left to right (the semantics of Python `split("__")`). -/
def splitDunder : List Char → List (List Char)
  | [] => [[]]
  | '_' :: '_' :: rest => [] :: splitDunder rest
  | c :: rest =>
    match splitDunder rest with
    | [] => [[c]]
    | p :: ps => (c :: p) :: ps

/-- Python `s.split("__")`. -/
def strSplitDunder (s : String) : List String :=
  (splitDunder s.data).map (fun l => String.mk l)

/-- Python `"__".join(parts)`. -/
def joinDunder : List String → String
  | [] => ""
  | [s] => s
  | s :: rest => s ++ "__" ++ joinDunder rest

/-- The `_orm_operator_transformer` dictionary: suffix token to
(operator, transformed value); `none` when the token is not a key. -/
def ormOperatorTransformer (suffix : String) (v : Value) : Option (Op × Value) :=
  match suffix with
  | "neq" => some (.ne, v)
  | "gt" => some (.gt, v)
  | "gte" => some (.ge, v)
  | "in" => some (.in_, v)
  | "isnull" =>
    match v with
    | .vBool true => some (.is_, .vNull)
    | _ => some (.isNot, .vNull)
  | "lt" => some (.lt, v)
  | "lte" => some (.le, v)
  | "like" => some (.like, v)
  | "ilike" => some (.ilike, v)
  | "not" => some (.isNot, v)
  | "not_in" => some (.notIn, v)
  | _ => none

/-- Suffix resolution at the top of the first `filter_test` loop: when the
name contains `__` and its last component is a transformer key, strip the
suffix and transform operator and value; otherwise keep name, `__eq__`
and the value. -/
def suffixResolve (fieldName0 : String) (value0 : Value) : String × Op × Value :=
  let parts := strSplitDunder fieldName0
  if parts.length > 1 then
    match ormOperatorTransformer (parts.getLastD "") value0 with
    | some (op, v) => (joinDunder parts.dropLast, op, v)
    | none => (fieldName0, .eq, value0)
  else (fieldName0, .eq, value0)

/-- Append the conditions one keyword argument contributes to the query:
the shape every query-building loop iteration shares. -/
def condsAppendStep (kwConds : (String × Value) → Except PyErr (List Cond))
    (acc : Except PyErr QueryS) (kv : String × Value) : Except PyErr QueryS :=
  match acc with
  | .error e => .error e
  | .ok q =>
    match kwConds kv with
    | .error e => .error e
    | .ok cs => .ok { q with conds := q.conds ++ cs }

/-- Conditions contributed by one iteration of the first `filter_test`
loop (present only in the synchronous file).  For a relationship
attribute the filter is applied inside `try`/`except`, so a missing
composite attribute is swallowed; for a column attribute the bare
`getattr(self.model, field_name)` raises `AttributeError` when
`field_name` is not an attribute. -/
def firstPassKwConds (m : ModelT) (kv : String × Value) : Except PyErr (List Cond) :=
  let fov := suffixResolve kv.1 kv.2
  let fieldName := fov.1
  let attributeName := (strSplitDunder fieldName).headD ""
  match findAttr m attributeName with
  | none => .ok []
  | some att =>
    if att.isRelationship then
      if hasattrM m fieldName then .ok [Cond.cmp fieldName fov.2.1 fov.2.2]
      else .ok []
    else
      if hasattrM m fieldName then .ok [Cond.cmp fieldName fov.2.1 fov.2.2]
      else .error PyErr.attributeError

/-- One iteration of the first `filter_test` loop. -/
def firstPassStep (m : ModelT) : Except PyErr QueryS → String × Value → Except PyErr QueryS :=
  condsAppendStep (firstPassKwConds m)

/-- Conditions contributed by one iteration of the truthiness-guarded
filtering loop: the second `filter_test` loop of the synchronous file,
and the whole (surviving, second) `filter_test` definition of the
asynchronous file.  The two-value unpack of `split("__")` raises
`ValueError` on more than two components, and the unchecked dictionary
access raises `KeyError` on an unknown suffix. -/
def truthyKwConds (m : ModelT) (kv : String × Value) : Except PyErr (List Cond) :=
  if hasattrM m kv.1 && kv.2.truthy then
    let parts := strSplitDunder kv.1
    if parts.length > 1 then
      if parts.length == 2 then
        match ormOperatorTransformer (parts.getLastD "") kv.2 with
        | some (op, v) => .ok [Cond.cmp (parts.headD "") op v]
        | none => .error PyErr.keyError
      else .error PyErr.valueError
    else .ok [Cond.cmp kv.1 .eq kv.2]
  else .ok []

/-- One iteration of the truthiness-guarded filtering loop. -/
def truthyPassStep (m : ModelT) : Except PyErr QueryS → String × Value → Except PyErr QueryS :=
  condsAppendStep (truthyKwConds m)

/-- `_active_data`: append the live-row filter
`is_active == True, is_deleted == False`; the two `getattr` calls raise
`AttributeError` when the model lacks the columns. -/
def activeData (m : ModelT) (q : QueryS) : Except PyErr QueryS :=
  if hasattrM m "is_active" then
    if hasattrM m "is_deleted" then
      .ok { q with conds := q.conds ++
        [Cond.cmp "is_active" .eq (.vBool true), Cond.cmp "is_deleted" .eq (.vBool false)] }
    else .error .attributeError
  else .error .attributeError

/-- The live-row condition of the specification. -/
def liveRow (r : Row) : Bool :=
  Value.beq (r.get "is_active") (.vBool true) && Value.beq (r.get "is_deleted") (.vBool false)

/-- Coerce one element unpacked into `query.filter(*value)`: only a raw
condition object is accepted. -/
def rawCondOf : Value → Except PyErr Cond
  | .vRaw t => .ok (.raw t)
  | _ => .error .argumentError

/-- Conditions contributed by one iteration of the keyword loop of
`filter_by`: an attribute name gets an equality (or IN, for a list value)
condition; the reserved key `inner_filter` afterwards applies its value
(wrapped in a list when not one) as raw conditions. -/
def filterByKwConds (m : ModelT) (kv : String × Value) : Except PyErr (List Cond) :=
  let eqPart : List Cond :=
    if hasattrM m kv.1 then
      match kv.2 with
      | .vList _ => [Cond.cmp kv.1 .in_ kv.2]
      | _ => [Cond.cmp kv.1 .eq kv.2]
    else []
  if kv.1 == "inner_filter" then
    match (match kv.2 with | .vList l => l | v => [v]).mapM rawCondOf with
    | .error e => .error e
    | .ok cs => .ok (eqPart ++ cs)
  else .ok eqPart

/-- One iteration of the keyword loop of `filter_by`. -/
def filterByLoopStep (m : ModelT) : Except PyErr QueryS → String × Value → Except PyErr QueryS :=
  condsAppendStep (filterByKwConds m)

/-- Conditions contributed by one iteration of the keyword loop of
`get_multi`: as in `filter_by` but guarded by Python truthiness of the
value. -/
def getMultiKwConds (m : ModelT) (kv : String × Value) : Except PyErr (List Cond) :=
  let eqPart : List Cond :=
    if hasattrM m kv.1 && kv.2.truthy then
      match kv.2 with
      | .vList _ => [Cond.cmp kv.1 .in_ kv.2]
      | _ => [Cond.cmp kv.1 .eq kv.2]
    else []
  if kv.1 == "inner_filter" then
    match (match kv.2 with | .vList l => l | v => [v]).mapM rawCondOf with
    | .error e => .error e
    | .ok cs => .ok (eqPart ++ cs)
  else .ok eqPart

/-- One iteration of the keyword loop of `get_multi`. -/
def getMultiLoopStep (m : ModelT) : Except PyErr QueryS → String × Value → Except PyErr QueryS :=
  condsAppendStep (getMultiKwConds m)

/-- Conditions contributed by one iteration of the keyword loop of
`count`: as in `filter_by`, but `inner_filter` is unpacked without the
list wrap, so a non-list value fails to unpack. -/
def countKwConds (m : ModelT) (kv : String × Value) : Except PyErr (List Cond) :=
  let eqPart : List Cond :=
    if hasattrM m kv.1 then
      match kv.2 with
      | .vList _ => [Cond.cmp kv.1 .in_ kv.2]
      | _ => [Cond.cmp kv.1 .eq kv.2]
    else []
  if kv.1 == "inner_filter" then
    match kv.2 with
    | .vList l =>
      match l.mapM rawCondOf with
      | .error e => .error e
      | .ok cs => .ok (eqPart ++ cs)
    | _ => .error PyErr.typeError
  else .ok eqPart

/-- One iteration of the keyword loop of `count`. -/
def countLoopStep (m : ModelT) : Except PyErr QueryS → String × Value → Except PyErr QueryS :=
  condsAppendStep (countKwConds m)

/-- Truthiness of `kwargs.get("updated")` as tested inside `is_exist`. -/
def updatedTruthy (kwargs : List (String × Value)) : Bool :=
  (getKw kwargs "updated").elim false Value.truthy

/-- The filter conditions built by the `is_exist` loop, the constant
`kwargs.get("updated")` test hoisted into the parameter `upd`: every
attribute-named keyword becomes an equality condition, except the `id`
key under a truthy `updated`, which becomes an inequality. -/
def isExistStep (m : ModelT) (upd : Bool) (conds : List Cond) (kv : String × Value) :
    List Cond :=
  if hasattrM m kv.1 then
    conds ++ [if upd && kv.1 == "id" then Cond.cmp kv.1 .ne kv.2 else Cond.cmp kv.1 .eq kv.2]
  else conds

/-- The filter conditions built by the `is_exist` loop, iterated. -/
def isExistCondsAux (m : ModelT) (upd : Bool) (kwargs : List (String × Value)) : List Cond :=
  kwargs.foldl (isExistStep m upd) []

/-- The filter conditions built by the `is_exist` loop. -/
def isExistConds (m : ModelT) (kwargs : List (String × Value)) : List Cond :=
  isExistCondsAux m (updatedTruthy kwargs) kwargs

/-- `direction == "desc"` on the value read from kwargs (`none` models the
Python `None` returned by `dict.get`). -/
def dirIsDesc : Option Value → Bool
  | some (.vStr s) => s == "desc"
  | _ => false

namespace Sync

/-- `filter_test` of the synchronous file: the suffix-interpreting first
loop followed by the truthiness-guarded second loop over the same
kwargs. -/
def filter_test (m : ModelT) (query : QueryS) (kwargs : List (String × Value)) :
    Except PyErr QueryS :=
  kwargs.foldl (truthyPassStep m) (kwargs.foldl (firstPassStep m) (.ok query))

/-- `is_exist`: build the equality (or, for `id` under `updated`,
inequality) filters over all rows — no live-row filter — and raise a 400
`BaseHTTPException` with the `OBJECT_ALREADY_EXISTS` error code when a
row matches; otherwise return `True`. -/
def is_exist (m : ModelT) (env : Env) (table : List Row)
    (kwargs : List (String × Value)) : Except Exc Bool :=
  match (runQuery env table ⟨isExistConds m kwargs, [], []⟩).head? with
  | some _ => .error (.baseHTTP (alreadyExistsDetail m) 400 "OBJECT_ALREADY_EXISTS")
  | none => .ok true

/-- `get` of the synchronous file:
`db.query(self.model).filter(self.model.id == id).first()` — no live-row
filter, no not-found handling. -/
def get (m : ModelT) (table : List Row) (idv : Value) : Except Exc (Option Row) :=
  if hasattrM m "id" then
    .ok (table.filter (fun r => sqlEq (r.get "id") idv)).head?
  else .error (.py .attributeError)

/-- The query built by `filter_by`: live-row filter, joins, the keyword
loop, and (under `is_reversed`) one `nulls_last` ordering term taken from
the `order_by`/`direction` keywords or defaulting to `id` descending. -/
def filterByBuild (m : ModelT) (isReversed : Bool) (joinTables : List Nat) (isOuter : Bool)
    (kwargs : List (String × Value)) : Except PyErr QueryS :=
  match activeData m emptyQuery with
  | .error e => .error e
  | .ok q0 =>
    let q1 : QueryS := { q0 with joins := q0.joins ++ joinTables.map (fun t => (t, isOuter)) }
    match kwargs.foldl (filterByLoopStep m) (.ok q1) with
    | .error e => .error e
    | .ok q2 =>
      if hasattrM m "id" then
        let useKw := (getKw kwargs "order_by").elim false Value.truthy
        let orderKey : OrderKey :=
          if useKw then .val ((getKw kwargs "order_by").getD .vNull) else .modelId
        let direction : Option Value :=
          if useKw then getKw kwargs "direction" else some (.vStr "desc")
        if isReversed then
          .ok { q2 with orders := q2.orders ++ [⟨orderKey, dirIsDesc direction, true⟩] }
        else .ok q2
      else .error PyErr.attributeError

/-- `filter_by`: execute the built query, take `.first()`, and on an empty
result raise the 404 `BaseHTTPException` unless `raise_exc` is false. -/
def filter_by (m : ModelT) (env : Env) (table : List Row) (isReversed raiseExc : Bool)
    (joinTables : List Nat) (isOuter : Bool) (kwargs : List (String × Value)) :
    Except Exc (Option Row) :=
  match filterByBuild m isReversed joinTables isOuter kwargs with
  | .error e => .error (.py e)
  | .ok q =>
    match (runQuery env table q).head? with
    | some r => .ok (some r)
    | none =>
      if raiseExc then .error (.baseHTTP (notFoundDetail m) 404 "NOT_FOUND")
      else .ok none

/-- The part of the `get_multi` query built before `filter_data` is
touched: live-row filter, joins, and the truthiness-guarded keyword
loop. -/
def getMultiBase (m : ModelT) (joinTables : List Nat) (isOuter : Bool)
    (kwargs : List (String × Value)) : Except PyErr QueryS :=
  match activeData m emptyQuery with
  | .error e => .error e
  | .ok q0 =>
    let q1 : QueryS := { q0 with joins := q0.joins ++ joinTables.map (fun t => (t, isOuter)) }
    kwargs.foldl (getMultiLoopStep m) (.ok q1)

/-- The whole `get_multi` query: after the base, `filter_data.filter`
under the `filters` flag, then `filter_data.sort` under `sorting`, or the
keyword ordering, or the default `id` descending; `filter_data` being
`None` makes the attribute accesses raise. -/
def getMultiBuild (m : ModelT) (filterData : Option FilterData) (sorting filters : Bool)
    (joinTables : List Nat) (isOuter : Bool) (kwargs : List (String × Value)) :
    Except PyErr QueryS :=
  match getMultiBase m joinTables isOuter kwargs with
  | .error e => .error e
  | .ok q0 =>
    match (if filters then
        match filterData with
        | none => .error PyErr.attributeError
        | some fd => .ok (fd.filt q0)
      else .ok q0 : Except PyErr QueryS) with
    | .error e => .error e
    | .ok q =>
      if sorting then
        match filterData with
        | none => .error PyErr.attributeError
        | some fd => .ok (fd.sort q)
      else
        if (getKw kwargs "order_by").elim false Value.truthy then
          .ok { q with orders := q.orders ++
            [⟨.val ((getKw kwargs "order_by").getD .vNull), dirIsDesc (getKw kwargs "direction"), true⟩] }
        else
          if hasattrM m "id" then
            .ok { q with orders := q.orders ++ [⟨.modelId, true, false⟩] }
          else .error PyErr.attributeError

/-- `get_multi`: execute the built query; paginate (a page slice), or
return all rows deduplicated by `.unique()`. -/
def get_multi (m : ModelT) (env : Env) (table : List Row) (filterData : Option FilterData)
    (sorting filters pagination : Bool) (joinTables : List Nat) (isOuter : Bool)
    (kwargs : List (String × Value)) (pp : Nat × Nat) : Except Exc (List Row) :=
  match getMultiBuild m filterData sorting filters joinTables isOuter kwargs with
  | .error e => .error (.py e)
  | .ok q =>
    if pagination then .ok (paginateRows pp (runQuery env table q))
    else .ok (dedupRows (runQuery env table q))

/-- `create`: encode the payload, add the object, flush/commit; an
`IntegrityError` rolls the transaction back and becomes an
`HTTPException` 400 carrying `str(ex.orig)`; any other database error
propagates uncaught. -/
def create (be : DBBackend) (st : DBState) (objIn : Row) (autocommit : Bool) :
    DBState × Except Exc Row :=
  let dbObj := jsonable_encoder objIn
  let pending1 := st.pending ++ [dbObj]
  match be.commitErr st.committed pending1 with
  | some (.integrity txt) =>
    ({ committed := st.committed, pending := [] }, .error (.http txt 400))
  | some (.other txt) =>
    ({ committed := st.committed, pending := pending1 }, .error (.dbError txt))
  | none =>
    if autocommit then ({ committed := st.committed ++ pending1, pending := [] }, .ok dbObj)
    else ({ committed := st.committed, pending := pending1 }, .ok dbObj)

/-- `setattr` loop of `update`: every field of the encoded object present
in the update dictionary is overwritten; keys absent from the object are
ignored. -/
def mergeRow (dbObj : Row) (updateData : List (String × Value)) : Row :=
  ⟨dbObj.fields.map (fun kv =>
    match lookupField updateData kv.1 with
    | some v => (kv.1, v)
    | none => kv)⟩

/-- `update`: merge the update dictionary into the object, add it,
flush/commit; an `IntegrityError` rolls back and becomes an
`HTTPException` 400 carrying `str(ex.orig)`; any other database error
propagates uncaught. -/
def update (be : DBBackend) (st : DBState) (dbObj : Row) (objIn : List (String × Value))
    (autocommit : Bool) : DBState × Except Exc Row :=
  let newObj := mergeRow dbObj objIn
  let pending1 := st.pending ++ [newObj]
  match be.commitErr st.committed pending1 with
  | some (.integrity txt) =>
    ({ committed := st.committed, pending := [] }, .error (.http txt 400))
  | some (.other txt) =>
    ({ committed := st.committed, pending := pending1 }, .error (.dbError txt))
  | none =>
    if autocommit then
      ({ committed := (st.committed.map (fun r => if rowBeq r dbObj then newObj else r))
          ++ st.pending, pending := [] }, .ok newObj)
    else ({ committed := st.committed, pending := pending1 }, .ok newObj)

/-- `remove` of the synchronous file: fetch the row by primary key through
`with_deleted` (all rows, soft-deleted included), then `db.delete(obj)`
and commit — the row is physically removed.  `db.delete(None)` raises. -/
def remove (st : DBState) (idv : Value) : DBState × Except Exc Row :=
  match (st.committed.filter (fun r => sqlEq (r.get "id") idv)).head? with
  | none => (st, .error (.py .unmappedInstanceError))
  | some obj =>
    ({ committed := (st.committed.eraseP (fun r => rowBeq r obj)) ++ st.pending,
       pending := [] }, .ok obj)

/-- `hard_delete`: a DELETE statement filtered on `id`, then commit. -/
def hard_delete (m : ModelT) (st : DBState) (idv : Value) : DBState × Except Exc Bool :=
  if hasattrM m "id" then
    ({ committed := (st.committed.filter (fun r => !(sqlEq (r.get "id") idv))) ++ st.pending,
       pending := [] }, .ok true)
  else (st, .error (.py .attributeError))

/-- `count`: `select(func.count(self.model.id))` with the live-row filter
and the keyword loop; the executed count is the number of matching
rows. -/
def count (m : ModelT) (env : Env) (table : List Row) (kwargs : List (String × Value)) :
    Except Exc Nat :=
  if hasattrM m "id" then
    match (match activeData m emptyQuery with
      | .error e => .error e
      | .ok q0 => kwargs.foldl (countLoopStep m) (.ok q0) : Except PyErr QueryS) with
    | .error e => .error (.py e)
    | .ok q => .ok (table.filter (matchesQ env q)).length
  else .error (.py .attributeError)

end Sync

namespace Async

/-- `filter_test` of the asynchronous file: the class body defines
`filter_test` twice and the second definition wins, so only the
truthiness-guarded loop remains. -/
def filter_test (m : ModelT) (query : QueryS) (kwargs : List (String × Value)) :
    Except PyErr QueryS :=
  kwargs.foldl (truthyPassStep m) (.ok query)

/-- `is_exist` of the asynchronous file (textually identical logic to the
synchronous one). -/
def is_exist (m : ModelT) (env : Env) (table : List Row)
    (kwargs : List (String × Value)) : Except Exc Bool :=
  match (runQuery env table ⟨isExistConds m kwargs, [], []⟩).head? with
  | some _ => .error (.baseHTTP (alreadyExistsDetail m) 400 "OBJECT_ALREADY_EXISTS")
  | none => .ok true

/-- `get` of the asynchronous file: the live-row filter plus the `id`
equality, and on an empty result the 404 `BaseHTTPException` unless
`raise_exc` is false. -/
def get (m : ModelT) (env : Env) (table : List Row) (idv : Value) (raiseExc : Bool) :
    Except Exc (Option Row) :=
  match activeData m emptyQuery with
  | .error e => .error (.py e)
  | .ok q =>
    if hasattrM m "id" then
      match (runQuery env table
          { q with conds := q.conds ++ [Cond.cmp "id" .eq idv] }).head? with
      | some r => .ok (some r)
      | none =>
        if raiseExc then .error (.baseHTTP (notFoundDetail m) 404 "NOT_FOUND")
        else .ok none
    else .error (.py .attributeError)

/-- The query built by the asynchronous `filter_by` (textually identical
to the synchronous one). -/
def filterByBuild (m : ModelT) (isReversed : Bool) (joinTables : List Nat) (isOuter : Bool)
    (kwargs : List (String × Value)) : Except PyErr QueryS :=
  match activeData m emptyQuery with
  | .error e => .error e
  | .ok q0 =>
    let q1 : QueryS := { q0 with joins := q0.joins ++ joinTables.map (fun t => (t, isOuter)) }
    match kwargs.foldl (filterByLoopStep m) (.ok q1) with
    | .error e => .error e
    | .ok q2 =>
      if hasattrM m "id" then
        let useKw := (getKw kwargs "order_by").elim false Value.truthy
        let orderKey : OrderKey :=
          if useKw then .val ((getKw kwargs "order_by").getD .vNull) else .modelId
        let direction : Option Value :=
          if useKw then getKw kwargs "direction" else some (.vStr "desc")
        if isReversed then
          .ok { q2 with orders := q2.orders ++ [⟨orderKey, dirIsDesc direction, true⟩] }
        else .ok q2
      else .error PyErr.attributeError

/-- `filter_by` of the asynchronous file (textually identical logic to
the synchronous one). -/
def filter_by (m : ModelT) (env : Env) (table : List Row) (isReversed raiseExc : Bool)
    (joinTables : List Nat) (isOuter : Bool) (kwargs : List (String × Value)) :
    Except Exc (Option Row) :=
  match filterByBuild m isReversed joinTables isOuter kwargs with
  | .error e => .error (.py e)
  | .ok q =>
    match (runQuery env table q).head? with
    | some r => .ok (some r)
    | none =>
      if raiseExc then .error (.baseHTTP (notFoundDetail m) 404 "NOT_FOUND")
      else .ok none

/-- The pre-`filter_data` part of the asynchronous `get_multi` query
(textually identical to the synchronous one). -/
def getMultiBase (m : ModelT) (joinTables : List Nat) (isOuter : Bool)
    (kwargs : List (String × Value)) : Except PyErr QueryS :=
  match activeData m emptyQuery with
  | .error e => .error e
  | .ok q0 =>
    let q1 : QueryS := { q0 with joins := q0.joins ++ joinTables.map (fun t => (t, isOuter)) }
    kwargs.foldl (getMultiLoopStep m) (.ok q1)

/-- The whole asynchronous `get_multi` query (textually identical to the
synchronous one). -/
def getMultiBuild (m : ModelT) (filterData : Option FilterData) (sorting filters : Bool)
    (joinTables : List Nat) (isOuter : Bool) (kwargs : List (String × Value)) :
    Except PyErr QueryS :=
  match getMultiBase m joinTables isOuter kwargs with
  | .error e => .error e
  | .ok q0 =>
    match (if filters then
        match filterData with
        | none => .error PyErr.attributeError
        | some fd => .ok (fd.filt q0)
      else .ok q0 : Except PyErr QueryS) with
    | .error e => .error e
    | .ok q =>
      if sorting then
        match filterData with
        | none => .error PyErr.attributeError
        | some fd => .ok (fd.sort q)
      else
        if (getKw kwargs "order_by").elim false Value.truthy then
          .ok { q with orders := q.orders ++
            [⟨.val ((getKw kwargs "order_by").getD .vNull), dirIsDesc (getKw kwargs "direction"), true⟩] }
        else
          if hasattrM m "id" then
            .ok { q with orders := q.orders ++ [⟨.modelId, true, false⟩] }
          else .error PyErr.attributeError

/-- `get_multi` of the asynchronous file (textually identical logic to
the synchronous one). -/
def get_multi (m : ModelT) (env : Env) (table : List Row) (filterData : Option FilterData)
    (sorting filters pagination : Bool) (joinTables : List Nat) (isOuter : Bool)
    (kwargs : List (String × Value)) (pp : Nat × Nat) : Except Exc (List Row) :=
  match getMultiBuild m filterData sorting filters joinTables isOuter kwargs with
  | .error e => .error (.py e)
  | .ok q =>
    if pagination then .ok (paginateRows pp (runQuery env table q))
    else .ok (dedupRows (runQuery env table q))

/-- `create` of the asynchronous file: as the synchronous one but without
the `jsonable_encoder` call on the payload. -/
def create (be : DBBackend) (st : DBState) (objIn : Row) (autocommit : Bool) :
    DBState × Except Exc Row :=
  let dbObj := objIn
  let pending1 := st.pending ++ [dbObj]
  match be.commitErr st.committed pending1 with
  | some (.integrity txt) =>
    ({ committed := st.committed, pending := [] }, .error (.http txt 400))
  | some (.other txt) =>
    ({ committed := st.committed, pending := pending1 }, .error (.dbError txt))
  | none =>
    if autocommit then ({ committed := st.committed ++ pending1, pending := [] }, .ok dbObj)
    else ({ committed := st.committed, pending := pending1 }, .ok dbObj)

/-- `update` of the asynchronous file (textually identical logic to the
synchronous one). -/
def update (be : DBBackend) (st : DBState) (dbObj : Row) (objIn : List (String × Value))
    (autocommit : Bool) : DBState × Except Exc Row :=
  let newObj := Sync.mergeRow dbObj objIn
  let pending1 := st.pending ++ [newObj]
  match be.commitErr st.committed pending1 with
  | some (.integrity txt) =>
    ({ committed := st.committed, pending := [] }, .error (.http txt 400))
  | some (.other txt) =>
    ({ committed := st.committed, pending := pending1 }, .error (.dbError txt))
  | none =>
    if autocommit then
      ({ committed := (st.committed.map (fun r => if rowBeq r dbObj then newObj else r))
          ++ st.pending, pending := [] }, .ok newObj)
    else ({ committed := st.committed, pending := pending1 }, .ok newObj)

/-- `remove` of the asynchronous file: fetch the (live) row through
`filter_by` — defaults, so a missing row raises 404 — then set
`is_deleted = True` on it and commit; the row stays in the table. -/
def remove (m : ModelT) (env : Env) (st : DBState) (kwargs : List (String × Value)) :
    DBState × Except Exc Row :=
  match Async.filter_by m env st.committed false true [] false kwargs with
  | .error e => (st, .error e)
  | .ok none => (st, .error (.py .attributeError))
  | .ok (some r) =>
    let r2 := r.set "is_deleted" (.vBool true)
    ({ committed := (st.committed.map (fun x => if rowBeq x r then r2 else x)) ++ st.pending,
       pending := [] }, .ok r2)

/-- `hard_delete` of the asynchronous file (textually identical logic to
the synchronous one). -/
def hard_delete (m : ModelT) (st : DBState) (idv : Value) : DBState × Except Exc Bool :=
  if hasattrM m "id" then
    ({ committed := (st.committed.filter (fun r => !(sqlEq (r.get "id") idv))) ++ st.pending,
       pending := [] }, .ok true)
  else (st, .error (.py .attributeError))

/-- `count` of the asynchronous file (textually identical logic to the
synchronous one). -/
def count (m : ModelT) (env : Env) (table : List Row) (kwargs : List (String × Value)) :
    Except Exc Nat :=
  if hasattrM m "id" then
    match (match activeData m emptyQuery with
      | .error e => .error e
      | .ok q0 => kwargs.foldl (countLoopStep m) (.ok q0) : Except PyErr QueryS) with
    | .error e => .error (.py e)
    | .ok q => .ok (table.filter (matchesQ env q)).length
  else .error (.py .attributeError)

end Async

/-! ## Fixtures used by the concrete theorems below -/

/-- A concrete mapped model: columns `id`, `is_active`, `is_deleted`,
`age`, `n`, and a relationship `rel`. -/
def M1 : ModelT :=
  ⟨"UserAccount",
   [⟨"id", false⟩, ⟨"is_active", false⟩, ⟨"is_deleted", false⟩,
    ⟨"age", false⟩, ⟨"n", false⟩, ⟨"rel", true⟩]⟩

/-- A trivial environment: every raw condition and join accepts. -/
def env0 : Env := ⟨fun _ _ => true, fun _ _ => true⟩

/-- A live row. -/
def rLive : Row :=
  ⟨[("id", .vInt 1), ("is_active", .vBool true), ("is_deleted", .vBool false), ("n", .vInt 5)]⟩

/-- An inactive (but not deleted) row: soft under the spec. -/
def rInactive : Row :=
  ⟨[("id", .vInt 1), ("is_active", .vBool false), ("is_deleted", .vBool false), ("n", .vInt 5)]⟩

/-- A `filter_data` object whose `filter` and `sort` change nothing. -/
def fdId : FilterData := ⟨fun q => q, fun q => q⟩

/-- A session whose table holds the single live row. -/
def st1 : DBState := ⟨[rLive], []⟩

/-- `rLive` after the asynchronous soft delete. -/
def rLiveDeleted : Row := rLive.set "is_deleted" (.vBool true)

/-- A backend whose every flush reports a uniqueness violation. -/
def beDup : DBBackend := ⟨fun _ _ => some (.integrity "duplicate key")⟩

/-! ## Helper lemmas -/

mutual

/-- Value equality is reflexive. -/
theorem Value.beq_refl : ∀ v : Value, Value.beq v v = true
  | .vInt _ => by simp [Value.beq]
  | .vStr _ => by simp [Value.beq]
  | .vBool _ => by simp [Value.beq]
  | .vNull => rfl
  | .vList l => by simp [Value.beq, Value.beqList_refl l]
  | .vRaw _ => by simp [Value.beq]

/-- Value-list equality is reflexive. -/
theorem Value.beqList_refl : ∀ l : List Value, Value.beqList l l = true
  | [] => rfl
  | v :: vs => by simp [Value.beqList, Value.beq_refl v, Value.beqList_refl vs]

end

/-- Field-list equality is reflexive. -/
theorem fieldsBeq_refl : ∀ l : List (String × Value), fieldsBeq l l = true
  | [] => rfl
  | (k, v) :: rest => by simp [fieldsBeq, Value.beq_refl v, fieldsBeq_refl rest]

/-- Row equality is reflexive. -/
theorem rowBeq_refl (r : Row) : rowBeq r r = true := fieldsBeq_refl r.fields

/-- Setting a field then reading it yields the new value. -/
theorem lookupField_setField (f : String) (v : Value) :
    ∀ l : List (String × Value), lookupField (setField l f v) f = some v := by
  intro l
  induction l with
  | nil => simp [setField, lookupField]
  | cons kv rest ih =>
    obtain ⟨k, w⟩ := kv
    cases h : k == f with
    | true => simp [setField, h, lookupField]
    | false => simp [setField, h, lookupField, ih]

/-- `setattr` then attribute read yields the new value. -/
theorem Row.get_set (r : Row) (f : String) (v : Value) : (r.set f v).get f = v := by
  simp [Row.get, Row.set, lookupField_setField]

/-- The head of a list, when present, is a member. -/
theorem headMem {α : Type} {l : List α} {a : α} (h : l.head? = some a) : a ∈ l := by
  cases l with
  | nil => cases h
  | cons x xs =>
    simp [List.head?] at h
    simp [h]

/-- Membership through the insertion step of the result sort. -/
theorem mem_insertRow {os : List OrderSpec} {r a : Row} :
    ∀ {l : List Row}, a ∈ insertRow os r l → a = r ∨ a ∈ l := by
  intro l
  induction l with
  | nil => intro h; simp [insertRow] at h; exact Or.inl h
  | cons x xs ih =>
    intro h
    unfold insertRow at h
    split at h
    · rcases List.mem_cons.mp h with h1 | h1
      · exact Or.inl h1
      · exact Or.inr h1
    · rcases List.mem_cons.mp h with h1 | h1
      · exact Or.inr (by simp [h1])
      · rcases ih h1 with h2 | h2
        · exact Or.inl h2
        · exact Or.inr (List.mem_cons_of_mem _ h2)

/-- Ordering the result rows creates no new rows. -/
theorem mem_orderRows {os : List OrderSpec} {a : Row} :
    ∀ {l : List Row}, a ∈ orderRows os l → a ∈ l := by
  intro l
  induction l with
  | nil => intro h; simp [orderRows] at h
  | cons x xs ih =>
    intro h
    unfold orderRows at h
    simp only [List.foldr] at h
    rcases mem_insertRow h with h1 | h1
    · simp [h1]
    · exact List.mem_cons_of_mem _ (ih (by simpa [orderRows] using h1))

/-- Deduplication keeps only rows of the input. -/
theorem mem_dedupRowsAux {a : Row} :
    ∀ {l seen : List Row}, a ∈ dedupRowsAux seen l → a ∈ l := by
  intro l
  induction l with
  | nil => intro seen h; simp [dedupRowsAux] at h
  | cons x xs ih =>
    intro seen h
    unfold dedupRowsAux at h
    split at h
    · exact List.mem_cons_of_mem _ (ih h)
    · rcases List.mem_cons.mp h with h1 | h1
      · simp [h1]
      · exact List.mem_cons_of_mem _ (ih h1)

/-- A page slice keeps only rows of the result. -/
theorem mem_paginateRows {pp : Nat × Nat} {l : List Row} {a : Row}
    (h : a ∈ paginateRows pp l) : a ∈ l := by
  unfold paginateRows at h
  exact (((List.take_sublist _ _).trans (List.drop_sublist _ _)).mem h)

/-- Executed rows come from the table and satisfy the query. -/
theorem mem_runQuery {env : Env} {table : List Row} {q : QueryS} {r : Row}
    (h : r ∈ runQuery env table q) : r ∈ table ∧ matchesQ env q r = true := by
  unfold runQuery at h
  have h1 := List.mem_filter.mp (mem_orderRows h)
  exact ⟨h1.1, h1.2⟩

/-- A raised error propagates through a query-building fold. -/
theorem foldl_condsAppendStep_error (kc : (String × Value) → Except PyErr (List Cond)) :
    ∀ (l : List (String × Value)) (e : PyErr),
      l.foldl (condsAppendStep kc) (.error e) = .error e := by
  intro l
  induction l with
  | nil => intro e; rfl
  | cons kv rest ih =>
    intro e
    simp only [List.foldl, condsAppendStep]
    exact ih e

/-- A query-building fold only appends conditions. -/
theorem foldl_condsAppendStep_extend (kc : (String × Value) → Except PyErr (List Cond)) :
    ∀ (l : List (String × Value)) (q q' : QueryS),
      l.foldl (condsAppendStep kc) (.ok q) = .ok q' →
      (∃ ex, q'.conds = q.conds ++ ex) ∧ q'.joins = q.joins ∧ q'.orders = q.orders := by
  intro l
  induction l with
  | nil =>
    intro q q' h
    cases h
    exact ⟨⟨[], (List.append_nil _).symm⟩, rfl, rfl⟩
  | cons kv rest ih =>
    intro q q' h
    simp only [List.foldl] at h
    cases hc : kc kv with
    | error e =>
      rw [show condsAppendStep kc (.ok q) kv = .error e by
        simp [condsAppendStep, hc]] at h
      rw [foldl_condsAppendStep_error kc rest e] at h
      cases h
    | ok cs =>
      rw [show condsAppendStep kc (.ok q) kv = .ok { q with conds := q.conds ++ cs } by
        simp [condsAppendStep, hc]] at h
      obtain ⟨⟨ex1, hex1⟩, hj, ho⟩ := ih _ q' h
      exact ⟨⟨cs ++ ex1, by rw [hex1]; simp [List.append_assoc]⟩, hj, ho⟩

/-- A step whose keyword contributes nothing leaves the query unchanged. -/
theorem condsAppendStep_noop {kc : (String × Value) → Except PyErr (List Cond)}
    {kv : String × Value} (h : kc kv = .ok []) (acc : Except PyErr QueryS) :
    condsAppendStep kc acc kv = acc := by
  cases acc with
  | error e => rfl
  | ok q => simp [condsAppendStep, h]

/-- The live-row conditions appended by `_active_data`. -/
def activeCondList : List Cond :=
  [Cond.cmp "is_active" .eq (.vBool true), Cond.cmp "is_deleted" .eq (.vBool false)]

/-- What `_active_data` appends when it succeeds. -/
theorem activeData_ok {m : ModelT} {q q' : QueryS} (h : activeData m q = .ok q') :
    q' = { q with conds := q.conds ++ activeCondList } := by
  unfold activeData at h
  split at h
  · split at h
    · cases h; rfl
    · cases h
  · cases h

/-- An equality comparison against a boolean pins the value. -/
theorem sqlEq_vBool {a : Value} {b : Bool} (h : sqlEq a (.vBool b) = true) :
    a = .vBool b := by
  cases a <;> simp_all [sqlEq, Value.isNull, Value.beq]

/-- A row matching a query whose conditions include the live-row filter is
live. -/
theorem matches_live {env : Env} {q : QueryS} {r : Row}
    (h : matchesQ env q r = true)
    (h1 : Cond.cmp "is_active" .eq (.vBool true) ∈ q.conds)
    (h2 : Cond.cmp "is_deleted" .eq (.vBool false) ∈ q.conds) : liveRow r = true := by
  unfold matchesQ at h
  have hall := (List.all_eq_true.mp (Bool.and_elim_left h))
  have e1 := hall _ h1
  have e2 := hall _ h2
  simp only [evalCond, evalCmp] at e1 e2
  have g1 := sqlEq_vBool e1
  have g2 := sqlEq_vBool e2
  unfold liveRow
  rw [g1, g2]
  simp [Value.beq]

/-- Filtering with a stronger predicate yields at most as many rows. -/
theorem length_filter_le_of_imp {α : Type} (p q : α → Bool) :
    ∀ l : List α, (∀ a, a ∈ l → p a = true → q a = true) →
      (l.filter p).length ≤ (l.filter q).length := by
  intro l
  induction l with
  | nil => intro _; simp
  | cons x xs ih =>
    intro himp
    have ihs := ih (fun a ha => himp a (List.mem_cons_of_mem _ ha))
    cases hp : p x with
    | false =>
      simp only [List.filter, hp]
      cases hq : q x with
      | false => exact ihs
      | true => simp only [List.length]; omega
    | true =>
      have hq := himp x (List.mem_cons_self x xs) hp
      simp only [List.filter, hp, hq, List.length]
      omega

/-- A `filter_data` object that only adds filter conditions (its `filter`
and `sort` never remove a condition already on the query) — true of the
fastapi-filter objects the class is written for. -/
def FdConservative (fd : FilterData) : Prop :=
  (∀ q, ∃ ex, (fd.filt q).conds = q.conds ++ ex) ∧
  (∀ q, ∃ ex, (fd.sort q).conds = q.conds ++ ex)

/-- The identity `filter_data` only appends. -/
theorem fdId_conservative : FdConservative fdId :=
  ⟨fun q => ⟨[], by simp [fdId]⟩, fun q => ⟨[], by simp [fdId]⟩⟩

/-- A query built by `filter_by` starts with the live-row conditions. -/
theorem filterByBuild_conds {m : ModelT} {isR : Bool} {jts : List Nat} {io : Bool}
    {kwargs : List (String × Value)} {q : QueryS}
    (h : Sync.filterByBuild m isR jts io kwargs = .ok q) :
    ∃ ex, q.conds = activeCondList ++ ex := by
  unfold Sync.filterByBuild at h
  split at h
  · cases h
  · rename_i q0 ha
    dsimp only at h
    split at h
    · cases h
    · rename_i q2 hf
      obtain ⟨⟨ex, hex⟩, _, _⟩ := foldl_condsAppendStep_extend (filterByKwConds m) kwargs _ _ hf
      have hq0 := activeData_ok ha
      subst hq0
      split at h
      · split at h
        · cases h
          exact ⟨ex, by simpa using hex⟩
        · cases h
          exact ⟨ex, by simpa using hex⟩
      · cases h

/-- The pre-`filter_data` part of the `get_multi` query starts with the
live-row conditions. -/
theorem getMultiBase_conds {m : ModelT} {jts : List Nat} {io : Bool}
    {kwargs : List (String × Value)} {q : QueryS}
    (h : Sync.getMultiBase m jts io kwargs = .ok q) :
    ∃ ex, q.conds = activeCondList ++ ex := by
  unfold Sync.getMultiBase at h
  split at h
  · cases h
  · rename_i q0 ha
    dsimp only at h
    obtain ⟨⟨ex, hex⟩, _, _⟩ := foldl_condsAppendStep_extend (getMultiKwConds m) kwargs _ _ h
    have hq0 := activeData_ok ha
    subst hq0
    exact ⟨ex, by simpa using hex⟩

/-- A query built by `get_multi` with a conservative `filter_data` starts
with the live-row conditions. -/
theorem getMultiBuild_conds {m : ModelT} {fd : FilterData} {sorting filters : Bool}
    {jts : List Nat} {io : Bool} {kwargs : List (String × Value)} {q : QueryS}
    (hfd : FdConservative fd)
    (h : Sync.getMultiBuild m (some fd) sorting filters jts io kwargs = .ok q) :
    ∃ ex, q.conds = activeCondList ++ ex := by
  unfold Sync.getMultiBuild at h
  split at h
  · cases h
  · rename_i q0 hbase
    obtain ⟨ex0, hex0⟩ := getMultiBase_conds hbase
    split at h
    · cases h
    · rename_i q1 hfilt
      have hq1 : ∃ ex, q1.conds = q0.conds ++ ex := by
        split at hfilt
        · cases hfilt
          exact hfd.1 q0
        · cases hfilt
          exact ⟨[], by simp⟩
      obtain ⟨ex1, hex1⟩ := hq1
      split at h
      · cases h
        obtain ⟨ex2, hex2⟩ := hfd.2 q1
        exact ⟨ex0 ++ ex1 ++ ex2, by rw [hex2, hex1, hex0]; simp [List.append_assoc]⟩
      · split at h
        · cases h
          exact ⟨ex0 ++ ex1, by simp only; rw [hex1, hex0, List.append_assoc]⟩
        · split at h
          · cases h
            exact ⟨ex0 ++ ex1, by simp only; rw [hex1, hex0, List.append_assoc]⟩
          · cases h

/-- Both live-row conditions sit in a condition list extending
`activeCondList`. -/
theorem active_mem_left {cs ex : List Cond} (h : cs = activeCondList ++ ex) :
    Cond.cmp "is_active" .eq (.vBool true) ∈ cs ∧
    Cond.cmp "is_deleted" .eq (.vBool false) ∈ cs := by
  subst h
  exact ⟨List.mem_append_left _ (List.mem_cons_self _ _),
         List.mem_append_left _ (List.mem_cons_of_mem _ (List.mem_cons_self _ _))⟩

/-- A row matching a query whose conditions extend `activeCondList` is
live. -/
theorem matches_live_of_conds {env : Env} {q : QueryS} {r : Row} {ex : List Cond}
    (hm : matchesQ env q r = true) (hex : q.conds = activeCondList ++ ex) :
    liveRow r = true :=
  matches_live hm (active_mem_left hex).1 (active_mem_left hex).2

/-- C1, counterexample: the synchronous `get` is a default read path, yet
it queries by `id` alone — no live-row filter — and returns a row whose
`is_active` is false. -/
theorem c1_counterexample :
    Sync.get M1 [rInactive] (.vInt 1) = .ok (some rInactive) ∧
    liveRow rInactive = false :=
  ⟨rfl, rfl⟩

/-- C1, amended: every row returned by `filter_by`, `get_multi` (with a
`filter_data` that only adds conditions) or the asynchronous `get`
satisfies the live-row condition, and `count` counts only live rows —
because those queries carry the `_active_data` filter; the synchronous
`get` applies no such filter. -/
theorem c1_live_default_reads (m : ModelT) (env : Env) (table : List Row)
    (kwargs : List (String × Value)) (r : Row) :
    (∀ isR rE jts io, Sync.filter_by m env table isR rE jts io kwargs = .ok (some r) →
       liveRow r = true) ∧
    (∀ fd sorting filters pagination jts io pp rows, FdConservative fd →
       Sync.get_multi m env table (some fd) sorting filters pagination jts io kwargs pp
         = .ok rows →
       r ∈ rows → liveRow r = true) ∧
    (∀ n, Sync.count m env table kwargs = .ok n → n ≤ (table.filter liveRow).length) ∧
    (∀ idv rE, Async.get m env table idv rE = .ok (some r) → liveRow r = true) := by
  refine ⟨?_, ?_, ?_, ?_⟩
  · intro isR rE jts io h
    unfold Sync.filter_by at h
    split at h
    · cases h
    · rename_i q hb
      split at h
      · rename_i r0 hh
        simp only [Except.ok.injEq, Option.some.injEq] at h
        subst h
        exact matches_live_of_conds (mem_runQuery (headMem hh)).2
          (filterByBuild_conds hb).choose_spec
      · split at h
        · cases h
        · simp at h
  · intro fd sorting filters pagination jts io pp rows hfd h hr
    unfold Sync.get_multi at h
    split at h
    · cases h
    · rename_i q hb
      obtain ⟨ex, hex⟩ := getMultiBuild_conds hfd hb
      split at h
      · cases h
        exact matches_live_of_conds (mem_runQuery (mem_paginateRows hr)).2 hex
      · cases h
        have hr2 : r ∈ runQuery env table q := mem_dedupRowsAux (by simpa [dedupRows] using hr)
        exact matches_live_of_conds (mem_runQuery hr2).2 hex
  · intro n h
    unfold Sync.count at h
    split at h
    · split at h
      · cases h
      · rename_i q hq
        cases h
        split at hq
        · cases hq
        · rename_i q0 ha
          obtain ⟨⟨ex, hex⟩, _, _⟩ := foldl_condsAppendStep_extend (countKwConds m) kwargs _ _ hq
          have hq0 := activeData_ok ha
          subst hq0
          refine length_filter_le_of_imp _ _ table ?_
          intro a _ hp
          exact matches_live_of_conds hp (by simpa using hex)
    · cases h
  · intro idv rE h
    unfold Async.get at h
    split at h
    · cases h
    · rename_i q0 ha
      split at h
      · split at h
        · rename_i r0 hh
          simp only [Except.ok.injEq, Option.some.injEq] at h
          subst h
          have hq0 := activeData_ok ha
          subst hq0
          exact matches_live_of_conds (mem_runQuery (headMem hh)).2
            (show _ = activeCondList ++ [Cond.cmp "id" .eq idv] by simp [emptyQuery])
        · split at h
          · cases h
          · simp at h
      · cases h

/-- C1 witness: the live row fetched by `filter_by` on a one-row table is
indeed live. -/
theorem c1_live_default_reads_witness : liveRow rLive = true :=
  (c1_live_default_reads M1 env0 [rLive] [] rLive).1 false true [] false rfl

/-- C2, counterexample: the synchronous `remove` physically removes the
row — after it, the table no longer contains the row. -/
theorem c2_counterexample :
    st1.committed = [rLive] ∧
    Sync.remove st1 (.vInt 1) = (⟨[], []⟩, .ok rLive) :=
  ⟨rfl, rfl⟩

/-- C2, amended: the asynchronous `remove` soft-deletes — the returned row
has `is_deleted` set and still exists in the table; the synchronous
`remove` instead deletes the row physically. -/
theorem c2_soft_delete (m : ModelT) (env : Env) (st : DBState)
    (kwargs : List (String × Value)) (st' : DBState) (r : Row)
    (h : Async.remove m env st kwargs = (st', .ok r)) :
    r.get "is_deleted" = .vBool true ∧ r ∈ st'.committed := by
  unfold Async.remove at h
  split at h
  · simp only [Prod.mk.injEq] at h
    exact absurd h.2 (by simp)
  · simp only [Prod.mk.injEq] at h
    exact absurd h.2 (by simp)
  · rename_i r0 hfb
    simp only [Prod.mk.injEq, Except.ok.injEq] at h
    obtain ⟨hst, hr⟩ := h
    subst hst
    subst hr
    refine ⟨Row.get_set r0 "is_deleted" (.vBool true), ?_⟩
    have hr0 : r0 ∈ st.committed := by
      unfold Async.filter_by at hfb
      split at hfb
      · cases hfb
      · split at hfb
        · rename_i r1 hh
          simp only [Except.ok.injEq, Option.some.injEq] at hfb
          subst hfb
          exact (mem_runQuery (headMem hh)).1
        · split at hfb
          · cases hfb
          · simp at hfb
    exact List.mem_append_left _
      (List.mem_map.mpr ⟨r0, hr0, by simp [rowBeq_refl]⟩)

/-- C2 witness: soft-deleting the live row by `id` leaves it in the table
with `is_deleted` true. -/
theorem c2_soft_delete_witness :
    rLiveDeleted.get "is_deleted" = .vBool true ∧
    rLiveDeleted ∈ (⟨[rLiveDeleted], []⟩ : DBState).committed :=
  c2_soft_delete M1 env0 st1 [("id", .vInt 1)] ⟨[rLiveDeleted], []⟩ rLiveDeleted rfl

/-- C3, counterexample: on the same one-row table the synchronous `remove`
empties the table while the asynchronous `remove` keeps the row, flagged —
the two variants do not implement the same state change. -/
theorem c3_counterexample :
    (Sync.remove st1 (.vInt 1)).1.committed = [] ∧
    (Async.remove M1 env0 st1 [("id", .vInt 1)]).1.committed = [rLiveDeleted] ∧
    ([] : List Row) ≠ [rLiveDeleted] :=
  ⟨rfl, rfl, by simp⟩

/-- C3, amended: the two variants do implement identical logic for
`is_exist`, `filter_by`, `get_multi`, `update`, `hard_delete` and `count`;
they differ on `remove` (physical versus flag deletion — see the
counterexample), on `get` (only the asynchronous one applies the live-row
filter and the optional 404), on `filter_test` (the synchronous file runs
an extra suffix-interpreting pass) and on `create` (only the synchronous
one encodes the payload first). -/
theorem c3_shared_logic :
    Async.is_exist = Sync.is_exist ∧
    Async.filter_by = Sync.filter_by ∧
    Async.get_multi = Sync.get_multi ∧
    Async.update = Sync.update ∧
    Async.hard_delete = Sync.hard_delete ∧
    Async.count = Sync.count :=
  ⟨rfl, rfl, rfl, rfl, rfl, rfl⟩

/-- C4, counterexample: a keyword whose name carries a double-underscore
suffix that is not a recognized comparison, over a genuine column (`age`),
is not interpreted as an equality — the bare
`getattr(self.model, "age__foo")` raises `AttributeError`. -/
theorem c4_counterexample :
    Sync.filter_test M1 emptyQuery [("age__foo", .vInt 5)] = .error .attributeError :=
  rfl

/-- `filter_test` on one keyword: first-pass conditions then second-pass
conditions are appended. -/
theorem filter_test_single (m : ModelT) (q : QueryS) (kv : String × Value)
    (cs cs2 : List Cond)
    (h1 : firstPassKwConds m kv = .ok cs) (h2 : truthyKwConds m kv = .ok cs2) :
    Sync.filter_test m q [kv] = .ok { q with conds := q.conds ++ (cs ++ cs2) } := by
  unfold Sync.filter_test
  simp only [List.foldl, firstPassStep, truthyPassStep, condsAppendStep, h1, h2]
  simp [List.append_assoc]

/-- Null-safe equality against NULL is the null test. -/
theorem beq_vNull_isNull (a : Value) : Value.beq a .vNull = a.isNull := by
  cases a <;> rfl

/-- C4, amended: on a column (`age`) every recognized double-underscore
suffix applies its comparison (`isnull=True` an IS-NULL test, any other
`isnull` value an IS-NOT-NULL test), and a plain attribute name applies
equality (twice when the value is truthy — once per `filter_test` pass).
A name with an unrecognized suffix over a column raises `AttributeError`
instead (see the counterexample). -/
theorem c4_suffix_operators (q : QueryS) (v : Value) :
    Sync.filter_test M1 q [("age__neq", v)]
      = .ok { q with conds := q.conds ++ [.cmp "age" .ne v] } ∧
    Sync.filter_test M1 q [("age__gt", v)]
      = .ok { q with conds := q.conds ++ [.cmp "age" .gt v] } ∧
    Sync.filter_test M1 q [("age__gte", v)]
      = .ok { q with conds := q.conds ++ [.cmp "age" .ge v] } ∧
    Sync.filter_test M1 q [("age__lt", v)]
      = .ok { q with conds := q.conds ++ [.cmp "age" .lt v] } ∧
    Sync.filter_test M1 q [("age__lte", v)]
      = .ok { q with conds := q.conds ++ [.cmp "age" .le v] } ∧
    Sync.filter_test M1 q [("age__in", v)]
      = .ok { q with conds := q.conds ++ [.cmp "age" .in_ v] } ∧
    Sync.filter_test M1 q [("age__not_in", v)]
      = .ok { q with conds := q.conds ++ [.cmp "age" .notIn v] } ∧
    Sync.filter_test M1 q [("age__like", v)]
      = .ok { q with conds := q.conds ++ [.cmp "age" .like v] } ∧
    Sync.filter_test M1 q [("age__ilike", v)]
      = .ok { q with conds := q.conds ++ [.cmp "age" .ilike v] } ∧
    Sync.filter_test M1 q [("age__not", v)]
      = .ok { q with conds := q.conds ++ [.cmp "age" .isNot v] } ∧
    Sync.filter_test M1 q [("age__isnull", .vBool true)]
      = .ok { q with conds := q.conds ++ [.cmp "age" .is_ .vNull] } ∧
    Sync.filter_test M1 q [("age__isnull", .vBool false)]
      = .ok { q with conds := q.conds ++ [.cmp "age" .isNot .vNull] } ∧
    Sync.filter_test M1 q [("age", v)]
      = .ok { q with conds := q.conds ++
          (if v.truthy then [Cond.cmp "age" .eq v, Cond.cmp "age" .eq v]
           else [Cond.cmp "age" .eq v]) } ∧
    (∀ env r, evalCond env r (.cmp "age" .is_ .vNull) = (r.get "age").isNull) ∧
    (∀ env r, evalCond env r (.cmp "age" .isNot .vNull) = !(r.get "age").isNull) := by
  refine ⟨?_, ?_, ?_, ?_, ?_, ?_, ?_, ?_, ?_, ?_, ?_, ?_, ?_, ?_, ?_⟩
  · exact filter_test_single M1 q ("age__neq", v) [.cmp "age" .ne v] [] rfl rfl
  · exact filter_test_single M1 q ("age__gt", v) [.cmp "age" .gt v] [] rfl rfl
  · exact filter_test_single M1 q ("age__gte", v) [.cmp "age" .ge v] [] rfl rfl
  · exact filter_test_single M1 q ("age__lt", v) [.cmp "age" .lt v] [] rfl rfl
  · exact filter_test_single M1 q ("age__lte", v) [.cmp "age" .le v] [] rfl rfl
  · exact filter_test_single M1 q ("age__in", v) [.cmp "age" .in_ v] [] rfl rfl
  · exact filter_test_single M1 q ("age__not_in", v) [.cmp "age" .notIn v] [] rfl rfl
  · exact filter_test_single M1 q ("age__like", v) [.cmp "age" .like v] [] rfl rfl
  · exact filter_test_single M1 q ("age__ilike", v) [.cmp "age" .ilike v] [] rfl rfl
  · exact filter_test_single M1 q ("age__not", v) [.cmp "age" .isNot v] [] rfl rfl
  · exact filter_test_single M1 q ("age__isnull", .vBool true)
      [.cmp "age" .is_ .vNull] [] rfl rfl
  · exact filter_test_single M1 q ("age__isnull", .vBool false)
      [.cmp "age" .isNot .vNull] [] rfl rfl
  · cases htv : v.truthy with
    | true =>
      have h2 : truthyKwConds M1 ("age", v) = .ok [Cond.cmp "age" .eq v] := by
        unfold truthyKwConds
        rw [show (hasattrM M1 "age" && Value.truthy v) = Value.truthy v from rfl, htv]
        rfl
      rw [filter_test_single M1 q ("age", v)
        [Cond.cmp "age" .eq v] [Cond.cmp "age" .eq v] rfl h2]
      simp [htv]
    | false =>
      have h2 : truthyKwConds M1 ("age", v) = .ok [] := by
        unfold truthyKwConds
        rw [show (hasattrM M1 "age" && Value.truthy v) = Value.truthy v from rfl, htv]
        rfl
      rw [filter_test_single M1 q ("age", v) [Cond.cmp "age" .eq v] [] rfl h2]
      simp [htv]
  · intro env r
    simp only [evalCond, evalCmp]
    exact beq_vNull_isNull _
  · intro env r
    simp only [evalCond, evalCmp]
    rw [beq_vNull_isNull]

/-- `hasattr` false means `getattr`-with-default finds nothing. -/
theorem findAttr_eq_none {m : ModelT} {s : String} (h : hasattrM m s = false) :
    findAttr m s = none := by
  unfold findAttr
  rw [List.find?_eq_none]
  intro a ha hpa
  unfold hasattrM at h
  exact absurd hpa (by simpa using List.any_eq_false.mp h a ha)

/-- `dict.get` skips a key that is not the one looked up. -/
theorem getKw_cons_ne (k s : String) (v : Value) (rest : List (String × Value))
    (h : k ≠ s) : getKw ((k, v) :: rest) s = getKw rest s := by
  simp [getKw, List.find?, beq_eq_false_iff_ne.mpr h]

/-- C5, counterexample: the reserved keyword `inner_filter` is not a model
attribute, yet `filter_by` does not ignore it — its value is applied to
the query as a raw filter condition. -/
theorem c5_counterexample :
    hasattrM M1 "inner_filter" = false ∧
    Sync.filterByBuild M1 false [] false [("inner_filter", .vRaw 7)]
      = .ok ⟨activeCondList ++ [.raw 7], [], []⟩ ∧
    Sync.filterByBuild M1 false [] false [] = .ok ⟨activeCondList, [], []⟩ :=
  ⟨rfl, rfl, rfl⟩

/-- C5, amended: a keyword argument whose name is not a model attribute —
neither the full name nor the base component left after suffix stripping —
and is none of the reserved keys `inner_filter`, `order_by`, `direction`,
is silently ignored by `filter_test`, `filter_by` and `get_multi` and
raises no error.  Both exceptions are real: the reserved keys, though not
model attributes, do alter the query (see the counterexample), and a
non-attribute name whose suffix-stripped base component is a column
attribute makes `filter_test` raise `AttributeError` rather than ignore
it — the bare `getattr(self.model, field_name)` of its first loop — which
is why the base-component hypothesis is part of the statement. -/
theorem c5_unknown_fields_ignored (m : ModelT) (k : String) (v : Value)
    (rest : List (String × Value)) (q0 : QueryS)
    (h1 : hasattrM m ((strSplitDunder (suffixResolve k v).1).headD "") = false)
    (h2 : hasattrM m k = false)
    (h3 : k ≠ "inner_filter") (h4 : k ≠ "order_by") (h5 : k ≠ "direction") :
    Sync.filter_test m q0 ((k, v) :: rest) = Sync.filter_test m q0 rest ∧
    (∀ isR jts io, Sync.filterByBuild m isR jts io ((k, v) :: rest)
       = Sync.filterByBuild m isR jts io rest) ∧
    (∀ fd sorting filters jts io,
       Sync.getMultiBuild m fd sorting filters jts io ((k, v) :: rest)
         = Sync.getMultiBuild m fd sorting filters jts io rest) := by
  have hbe : (k == "inner_filter") = false := beq_eq_false_iff_ne.mpr h3
  have hf : firstPassKwConds m (k, v) = .ok [] := by
    unfold firstPassKwConds
    dsimp only
    rw [findAttr_eq_none h1]
  have ht : truthyKwConds m (k, v) = .ok [] := by
    unfold truthyKwConds
    simp [h2]
  have hfb : filterByKwConds m (k, v) = .ok [] := by
    unfold filterByKwConds
    simp [h2, hbe]
  have hgm : getMultiKwConds m (k, v) = .ok [] := by
    unfold getMultiKwConds
    simp [h2, hbe]
  refine ⟨?_, ?_, ?_⟩
  · unfold Sync.filter_test
    simp only [List.foldl, firstPassStep, truthyPassStep,
      condsAppendStep_noop hf, condsAppendStep_noop ht]
  · intro isR jts io
    unfold Sync.filterByBuild
    cases ha : activeData m emptyQuery with
    | error e => rfl
    | ok qa =>
      dsimp only
      simp only [List.foldl, filterByLoopStep, condsAppendStep_noop hfb]
      rw [getKw_cons_ne k "order_by" v rest h4, getKw_cons_ne k "direction" v rest h5]
  · intro fd sorting filters jts io
    have hbase : Sync.getMultiBase m jts io ((k, v) :: rest)
        = Sync.getMultiBase m jts io rest := by
      unfold Sync.getMultiBase
      cases ha : activeData m emptyQuery with
      | error e => rfl
      | ok qa =>
        dsimp only
        simp only [List.foldl, getMultiLoopStep, condsAppendStep_noop hgm]
    unfold Sync.getMultiBuild
    rw [hbase, getKw_cons_ne k "order_by" v rest h4, getKw_cons_ne k "direction" v rest h5]

/-- C5 witness: a keyword naming no attribute of the concrete model is
dropped by `filter_test`. -/
theorem c5_unknown_fields_ignored_witness :
    Sync.filter_test M1 emptyQuery [("zzz", .vInt 3)] = Sync.filter_test M1 emptyQuery [] :=
  (c5_unknown_fields_ignored M1 "zzz" (.vInt 3) [] emptyQuery rfl rfl
    (by decide) (by decide) (by decide)).1

/-- C6, counterexample: the synchronous `get` is a single-row read that,
matching no row, raises nothing — it has no `raise_exc` flag at all and
returns `None` where the claim requires an HTTP 404 under the default
(unsuppressed) behaviour. -/
theorem c6_counterexample : Sync.get M1 [] (.vInt 1) = .ok none := rfl

/-- C6, amended: for `filter_by` (both variants are identical) and the
asynchronous `get`, a single-row read matching no row raises the 404
`BaseHTTPException` exactly when `raise_exc` is true and returns `None`
when it is false; the synchronous `get` never raises (see the
counterexample). -/
theorem c6_not_found_flag :
    (∀ (m : ModelT) (env : Env) (table : List Row) (isR raiseExc : Bool)
       (jts : List Nat) (io : Bool) (kwargs : List (String × Value)) (q : QueryS),
       Sync.filterByBuild m isR jts io kwargs = .ok q →
       runQuery env table q = [] →
       Sync.filter_by m env table isR raiseExc jts io kwargs =
         (if raiseExc then .error (.baseHTTP (notFoundDetail m) 404 "NOT_FOUND")
          else .ok none)) ∧
    (∀ (m : ModelT) (env : Env) (table : List Row) (isR raiseExc : Bool)
       (jts : List Nat) (io : Bool) (kwargs : List (String × Value)),
       Sync.filter_by m env table isR raiseExc jts io kwargs = .ok none →
       raiseExc = false) ∧
    (∀ (m : ModelT) (env : Env) (table : List Row) (idv : Value) (raiseExc : Bool)
       (q0 : QueryS),
       activeData m emptyQuery = .ok q0 → hasattrM m "id" = true →
       runQuery env table { q0 with conds := q0.conds ++ [Cond.cmp "id" .eq idv] } = [] →
       Async.get m env table idv raiseExc =
         (if raiseExc then .error (.baseHTTP (notFoundDetail m) 404 "NOT_FOUND")
          else .ok none)) ∧
    (∀ (m : ModelT) (env : Env) (table : List Row) (idv : Value) (raiseExc : Bool),
       Async.get m env table idv raiseExc = .ok none → raiseExc = false) := by
  refine ⟨?_, ?_, ?_, ?_⟩
  · intro m env table isR raiseExc jts io kwargs q hb hempty
    unfold Sync.filter_by
    rw [hb]
    dsimp only
    rw [hempty]
    rfl
  · intro m env table isR raiseExc jts io kwargs h
    unfold Sync.filter_by at h
    split at h
    · cases h
    · split at h
      · simp at h
      · split at h
        · cases h
        · rename_i hre
          simpa using hre
  · intro m env table idv raiseExc q0 ha hid hempty
    unfold Async.get
    rw [ha]
    dsimp only
    rw [hid, hempty]
    rfl
  · intro m env table idv raiseExc h
    unfold Async.get at h
    split at h
    · cases h
    · split at h
      · split at h
        · simp at h
        · split at h
          · cases h
          · rename_i hre
            simpa using hre
      · cases h

/-- C6 witness: with `raise_exc` false, `filter_by` over an empty table
returns `None` without raising. -/
theorem c6_not_found_flag_witness :
    Sync.filter_by M1 env0 [] false false [] false [] =
      (if false then Except.error (Exc.baseHTTP (notFoundDetail M1) 404 "NOT_FOUND")
       else Except.ok none) :=
  c6_not_found_flag.1 M1 env0 [] false false [] false [] ⟨activeCondList, [], []⟩ rfl rfl

/-- C7: an `IntegrityError` at flush/commit time during `create` or
`update` rolls the transaction back — the committed rows are unchanged
and the pending rows dropped — and is re-raised as an `HTTPException`
with status 400 whose detail is the database's own error text; a
non-integrity database error is not caught (and performs no rollback). -/
theorem c7_integrity_rollback :
    (∀ (be : DBBackend) (st : DBState) (obj : Row) (auto : Bool) (txt : String),
       be.commitErr st.committed (st.pending ++ [jsonable_encoder obj])
         = some (.integrity txt) →
       Sync.create be st obj auto = (⟨st.committed, []⟩, .error (.http txt 400))) ∧
    (∀ (be : DBBackend) (st : DBState) (dbObj : Row) (objIn : List (String × Value))
       (auto : Bool) (txt : String),
       be.commitErr st.committed (st.pending ++ [Sync.mergeRow dbObj objIn])
         = some (.integrity txt) →
       Sync.update be st dbObj objIn auto = (⟨st.committed, []⟩, .error (.http txt 400))) ∧
    (∀ (be : DBBackend) (st : DBState) (obj : Row) (auto : Bool) (txt : String),
       be.commitErr st.committed (st.pending ++ [obj]) = some (.integrity txt) →
       Async.create be st obj auto = (⟨st.committed, []⟩, .error (.http txt 400))) ∧
    (∀ (be : DBBackend) (st : DBState) (obj : Row) (auto : Bool) (txt : String),
       be.commitErr st.committed (st.pending ++ [jsonable_encoder obj])
         = some (.other txt) →
       Sync.create be st obj auto =
         (⟨st.committed, st.pending ++ [jsonable_encoder obj]⟩, .error (.dbError txt))) := by
  refine ⟨?_, ?_, ?_, ?_⟩
  · intro be st obj auto txt h
    unfold Sync.create
    dsimp only
    rw [h]
  · intro be st dbObj objIn auto txt h
    unfold Sync.update
    dsimp only
    rw [h]
  · intro be st obj auto txt h
    unfold Async.create
    dsimp only
    rw [h]
  · intro be st obj auto txt h
    unfold Sync.create
    dsimp only
    rw [h]

/-- C7 witness: a uniqueness violation on `create` leaves the state empty
and raises the 400 with the backend's text. -/
theorem c7_integrity_rollback_witness :
    Sync.create beDup ⟨[], []⟩ rLive true = (⟨[], []⟩, .error (.http "duplicate key" 400)) :=
  c7_integrity_rollback.1 beDup ⟨[], []⟩ rLive true "duplicate key" rfl

/-- C8: `get_multi` called with its defaults (`filters=True`,
`sorting=True`) and no `filter_data` raises `AttributeError` — the `None`
object's `filter`/`sort` attributes are accessed unconditionally under
those flags — so the multi-row fetch is total only when `filter_data` is
supplied whenever `filters` or `sorting` is enabled. -/
theorem c8_filter_data_required :
    Sync.get_multi M1 env0 [] none true true true [] false [] (0, 50)
      = .error (.py .attributeError) ∧
    (∀ (m : ModelT) (env : Env) (table : List Row) (sorting filters pagination : Bool)
       (jts : List Nat) (io : Bool) (kwargs : List (String × Value)) (pp : Nat × Nat)
       (q : QueryS),
       Sync.getMultiBase m jts io kwargs = .ok q → (filters || sorting) = true →
       Sync.get_multi m env table none sorting filters pagination jts io kwargs pp
         = .error (.py .attributeError)) ∧
    (∀ (m : ModelT) (env : Env) (table : List Row) (fd : FilterData) (pagination : Bool)
       (jts : List Nat) (io : Bool) (kwargs : List (String × Value)) (pp : Nat × Nat)
       (q : QueryS),
       Sync.getMultiBase m jts io kwargs = .ok q →
       ∃ rows, Sync.get_multi m env table (some fd) true true pagination jts io kwargs pp
         = .ok rows) := by
  refine ⟨rfl, ?_, ?_⟩
  · intro m env table sorting filters pagination jts io kwargs pp q hq hfs
    unfold Sync.get_multi Sync.getMultiBuild
    rw [hq]
    dsimp only
    cases hf : filters with
    | true => rfl
    | false =>
      have hs : sorting = true := by simpa [hf] using hfs
      subst hs
      rfl
  · intro m env table fd pagination jts io kwargs pp q hq
    refine ⟨if pagination then paginateRows pp (runQuery env table (fd.sort (fd.filt q)))
            else dedupRows (runQuery env table (fd.sort (fd.filt q))), ?_⟩
    unfold Sync.get_multi Sync.getMultiBuild
    rw [hq]
    dsimp only
    cases pagination <;> rfl

/-- C8 witness: with `sorting` still enabled and no `filter_data`, the
attribute access on `None` raises. -/
theorem c8_filter_data_required_witness :
    Sync.get_multi M1 env0 [] none true false true [] false [] (0, 50)
      = .error (.py .attributeError) :=
  c8_filter_data_required.2.1 M1 env0 [] true false true [] false [] (0, 50)
    ⟨activeCondList, [], []⟩ rfl rfl

/-- C9: a keyword naming a model attribute with a falsy value contributes
no condition in `get_multi` (silently dropped), while `filter_by` applies
the equality (or IN) condition regardless of truthiness; on the concrete
one-row table the same keyword (`n = 0`) makes `filter_by` select nothing
and `get_multi` return the row. -/
theorem c9_falsy_filter_divergence :
    (∀ (m : ModelT) (q : QueryS) (k : String) (v : Value),
       hasattrM m k = true → Value.truthy v = false → k ≠ "inner_filter" →
       getMultiLoopStep m (.ok q) (k, v) = .ok q) ∧
    (∀ (m : ModelT) (q : QueryS) (k : String) (v : Value),
       hasattrM m k = true → k ≠ "inner_filter" →
       filterByLoopStep m (.ok q) (k, v) =
         .ok { q with conds := q.conds ++
           [match v with
            | .vList _ => Cond.cmp k .in_ v
            | _ => Cond.cmp k .eq v] }) ∧
    Sync.filter_by M1 env0 [rLive] false false [] false [("n", .vInt 0)] = .ok none ∧
    Sync.get_multi M1 env0 [rLive] (some fdId) true true false [] false [("n", .vInt 0)] (0, 50)
      = .ok [rLive] := by
  refine ⟨?_, ?_, rfl, rfl⟩
  · intro m q k v h1 h2 h3
    have hkw : getMultiKwConds m (k, v) = .ok [] := by
      unfold getMultiKwConds
      simp [h1, h2, beq_eq_false_iff_ne.mpr h3]
    exact condsAppendStep_noop hkw _
  · intro m q k v h1 h3
    have hbe : (k == "inner_filter") = false := beq_eq_false_iff_ne.mpr h3
    have hkw : filterByKwConds m (k, v) = .ok
        [match v with | .vList _ => Cond.cmp k .in_ v | _ => Cond.cmp k .eq v] := by
      unfold filterByKwConds
      cases v <;> simp [h1, hbe]
    simp [filterByLoopStep, condsAppendStep, hkw]

/-- C9 witness: the falsy-valued attribute keyword is dropped by the
`get_multi` loop. -/
theorem c9_falsy_filter_divergence_witness :
    getMultiLoopStep M1 (.ok emptyQuery) ("n", .vInt 0) = .ok emptyQuery :=
  c9_falsy_filter_divergence.1 M1 emptyQuery "n" (.vInt 0) rfl rfl (by decide)

/-- Without ordering terms the result sort is the identity. -/
theorem orderRows_nil_spec : ∀ l : List Row, orderRows [] l = l := by
  intro l
  induction l with
  | nil => rfl
  | cons x xs ih =>
    unfold orderRows at ih ⊢
    simp only [List.foldr]
    rw [ih]
    unfold insertRow
    cases xs with
    | nil => rfl
    | cons y ys => simp [rowLe]

/-- A value is never SQL-different from itself. -/
theorem sqlNe_self (a : Value) : sqlNe a a = false := by
  unfold sqlNe
  cases h : a.isNull with
  | true => simp [h]
  | false => simp [h, Value.beq_refl]

/-- Conditions already accumulated survive the `is_exist` fold. -/
theorem isExist_foldl_mono (m : ModelT) (upd : Bool) (c : Cond) :
    ∀ (l : List (String × Value)) (acc : List Cond),
      c ∈ acc → c ∈ l.foldl (isExistStep m upd) acc := by
  intro l
  induction l with
  | nil => intro acc h; exact h
  | cons kv rest ih =>
    intro acc h
    simp only [List.foldl]
    apply ih
    unfold isExistStep
    split
    · exact List.mem_append_left _ h
    · exact h

/-- Under a truthy `updated`, the `id` keyword contributes the inequality
condition to the `is_exist` fold. -/
theorem isExist_ne_mem (m : ModelT) {idv : Value} :
    ∀ (l : List (String × Value)) (acc : List Cond),
      ("id", idv) ∈ l → hasattrM m "id" = true →
      Cond.cmp "id" .ne idv ∈ l.foldl (isExistStep m true) acc := by
  intro l
  induction l with
  | nil => intro acc h; cases h
  | cons kv rest ih =>
    intro acc hmem hh
    simp only [List.foldl]
    rcases List.mem_cons.mp hmem with h1 | h1
    · apply isExist_foldl_mono
      rw [← h1]
      unfold isExistStep
      simp [hh]
    · exact ih _ h1 hh

/-- C10: `is_exist` returns `True` exactly when no row of the whole table
— soft-deleted and inactive rows included, no live-row filter being
applied — matches the equality filters built from the recognized
keywords; otherwise it raises the 400 `BaseHTTPException` carrying the
`OBJECT_ALREADY_EXISTS` error code; and under a truthy `updated` keyword
a row whose `id` equals the supplied `id` value never matches, the `id`
filter being an inequality. -/
theorem c10_is_exist (m : ModelT) (env : Env) (table : List Row)
    (kwargs : List (String × Value)) :
    (Sync.is_exist m env table kwargs = .ok true ↔
       table.filter (matchesQ env ⟨isExistConds m kwargs, [], []⟩) = []) ∧
    (table.filter (matchesQ env ⟨isExistConds m kwargs, [], []⟩) ≠ [] →
       Sync.is_exist m env table kwargs =
         .error (.baseHTTP (alreadyExistsDetail m) 400 "OBJECT_ALREADY_EXISTS")) ∧
    (∀ (idv : Value) (r : Row),
       updatedTruthy kwargs = true → ("id", idv) ∈ kwargs → hasattrM m "id" = true →
       r.get "id" = idv →
       matchesQ env ⟨isExistConds m kwargs, [], []⟩ r = false) := by
  have hrq : runQuery env table ⟨isExistConds m kwargs, [], []⟩ =
      table.filter (matchesQ env ⟨isExistConds m kwargs, [], []⟩) := by
    unfold runQuery
    exact orderRows_nil_spec _
  refine ⟨?_, ?_, ?_⟩
  · unfold Sync.is_exist
    rw [hrq]
    cases hfil : table.filter (matchesQ env ⟨isExistConds m kwargs, [], []⟩) with
    | nil => simp
    | cons a l => simp
  · intro hne
    unfold Sync.is_exist
    rw [hrq]
    cases hfil : table.filter (matchesQ env ⟨isExistConds m kwargs, [], []⟩) with
    | nil => exact absurd hfil hne
    | cons a l => rfl
  · intro idv r hupd hmem hid hEq
    have hne : Cond.cmp "id" .ne idv ∈ isExistConds m kwargs := by
      unfold isExistConds isExistCondsAux
      rw [hupd]
      exact isExist_ne_mem m kwargs [] hmem hid
    have hfalse : evalCond env r (Cond.cmp "id" .ne idv) = false := by
      simp only [evalCond, evalCmp]
      rw [hEq]
      exact sqlNe_self idv
    cases hall : (isExistConds m kwargs).all (evalCond env r) with
    | false => simp [matchesQ, hall]
    | true => exact absurd (List.all_eq_true.mp hall _ hne) (by simp [hfalse])

/-- A row whose `id` is the one supplied alongside `updated`. -/
def rId3 : Row := ⟨[("id", .vInt 3)]⟩

/-- C10 witness: under `updated=True` with `id=3`, the row with `id` 3
does not match the `is_exist` query. -/
theorem c10_is_exist_witness :
    matchesQ env0 ⟨isExistConds M1 [("updated", .vBool true), ("id", .vInt 3)], [], []⟩
      rId3 = false :=
  (c10_is_exist M1 env0 [] [("updated", .vBool true), ("id", .vInt 3)]).2.2 (.vInt 3) rId3
    rfl (List.mem_cons_of_mem _ (List.mem_cons_self _ _)) rfl rfl
